import Mathlib

/-!
Verification of the tenant-schema lifecycle and domain-routing engine
(django_pgschemas/models.py) against its specification.

The domain table and tenant table are embedded as lists of records; the
write paths of DomainMixin.save, TenantMixin.save and TenantMixin.delete
are translated statement by statement.  Collaborator code that lives
outside models.py (the namespace store in utils, the signal objects, the
connection backend) is modelled from the specification and marked as such
in the corresponding doc comments.
-/

namespace PgSchemas

/-- A row of the domain table.  Mirrors DomainMixin: pk (None before the
first save), the domain string, the tenant foreign key and is_primary. -/
structure Domain where
  pk : Option Nat
  domain : String
  tenant : Nat
  is_primary : Bool := true
deriving DecidableEq

namespace DomainMixin

/-- The queryset built in DomainMixin.save:
objects.filter(tenant=self.tenant, is_primary=True).exclude(pk=self.pk). -/
def primaryOthers (db : List Domain) (d : Domain) : List Domain :=
  db.filter (fun e => e.tenant == d.tenant && e.is_primary && e.pk != d.pk)

/-- The effect of domain_list.update(is_primary=False): every row matched
by the queryset above is demoted in place. -/
def demote (db : List Domain) (d : Domain) : List Domain :=
  db.map (fun e =>
    if e.tenant == d.tenant && e.is_primary && e.pk != d.pk then
      { e with is_primary := false }
    else e)

/-- A primary key not used by any stored row, assigned on INSERT. -/
def freshPk (db : List Domain) : Nat :=
  db.foldr (fun e m => max (e.pk.getD 0) m) 0 + 1

/-- The effect of super().save() on the domain table: INSERT with a fresh
pk when self.pk is None, UPDATE of the row with that pk when it exists,
INSERT with the explicit pk otherwise.  Returns the table and the saved
row (self, with its pk now set). -/
def superSave (db : List Domain) (d : Domain) : List Domain × Domain :=
  match d.pk with
  | none =>
      let d1 := { d with pk := some (freshPk db) }
      (db ++ [d1], d1)
  | some k =>
      if db.any (fun e => e.pk == some k) then
        (db.map (fun e => if e.pk == some k then d else e), d)
      else
        (db ++ [d], d)

/-- DomainMixin.save: compute the other primary domains of the tenant,
force is_primary when that set is empty, demote the set when the
effective value is true, then write the row. -/
def save (db : List Domain) (d : Domain) : List Domain × Domain :=
  let eff := d.is_primary || (primaryOthers db d).isEmpty
  let d1 := { d with is_primary := eff }
  let db1 := if eff then demote db d else db
  superSave db1 d1

/-- Modelled from the spec: the transaction.atomic decorator on
DomainMixin.save.  All steps run in one transaction; a failure at the
final write (after the demotion has been applied to the working state)
rolls the whole operation back, so the caller observes the original
table together with the error. -/
def saveAtomicRun (failWrite : Bool) (db : List Domain) (d : Domain) :
    List Domain × Option Unit :=
  let eff := d.is_primary || (primaryOthers db d).isEmpty
  let d1 := { d with is_primary := eff }
  let db1 := if eff then demote db d else db
  if failWrite then (db, none)
  else ((superSave db1 d1).1, some ())

/-- A sequence of successful Save calls, threaded through the table. -/
def saveAll (db : List Domain) (ds : List Domain) : List Domain :=
  ds.foldl (fun s d => (save s d).1) db

end DomainMixin

/-- The rows of the domain table that belong to a tenant. -/
def tenantDomains (db : List Domain) (t : Nat) : List Domain :=
  db.filter (fun e => e.tenant == t)

/-- The rows of the domain table that are primary for a tenant (the
queryset behind TenantMixin.get_primary_domain). -/
def tenantPrimaries (db : List Domain) (t : Nat) : List Domain :=
  db.filter (fun e => e.tenant == t && e.is_primary)

/-- Database well-formedness: stored rows have pairwise distinct,
non-null primary keys. -/
def WFdb (db : List Domain) : Prop :=
  (db.map Domain.pk).Nodup ∧ ∀ e ∈ db, e.pk ≠ none

/-- A Save call does not move an already-stored row to another tenant:
any stored row sharing the saved record's pk already has its tenant. -/
def tenantPreserved (db : List Domain) (d : Domain) : Bool :=
  db.all (fun e => e.pk != d.pk || e.tenant == d.tenant)

/-- The whole sequence of Save calls is tenant-preserving. -/
def tenantPreservedRun : List Domain → List Domain → Bool
  | _, [] => true
  | db, d :: ds =>
      tenantPreserved db d && tenantPreservedRun (DomainMixin.save db d).1 ds

/-- The number of rows that are primary for a tenant. -/
def primCount (db : List Domain) (t : Nat) : Nat :=
  db.countP (fun e => e.tenant == t && e.is_primary)

/-- The number of rows that belong to a tenant. -/
def domCount (db : List Domain) (t : Nat) : Nat :=
  db.countP (fun e => e.tenant == t)

/-- The error taxonomy of the lifecycle engine. -/
inductive TenantError where
  | validation
  | alreadyExists
  | txFailure
deriving DecidableEq

/-- A tenant row: pk (None before the first save), the unique
schema_name, and the per-type policy flags of TenantMixin:
auto_create_schema defaults to true, auto_drop_schema to false. -/
structure Tenant where
  pk : Option Nat
  schema_name : String
  auto_create_schema : Bool := true
  auto_drop_schema : Bool := false
deriving DecidableEq

/-- A lifecycle event as published on the bus.  The payload is the
tenant snapshot; serializable_fields returns self. -/
inductive Event where
  | post_sync (tenant : Tenant)
  | needs_sync (tenant : Tenant)
  | pre_drop (tenant : Tenant)
deriving DecidableEq

/-- The observable engine state: the tenant table, the namespaces that
exist in the database, and the log of published events. -/
structure SysState where
  tenants : List Tenant
  schemas : List String
  events : List Event
deriving DecidableEq

/-- Modelled from the spec: utils.schema_exists (the utils module is not
among the sources at hand) queries the catalog for a namespace and never
mutates. -/
def schema_exists (s : SysState) (n : String) : Bool :=
  s.schemas.contains n

/-- Modelled from the spec: utils.drop_schema issues a cascading drop;
dropping a non-existent namespace is treated as success (idempotent). -/
def drop_schema (s : SysState) (n : String) : SysState :=
  { s with schemas := s.schemas.filter (fun m => m != n) }

/-- Modelled from the spec: utils.create_schema.  With check_if_exists
set, creation against an existing namespace fails with AlreadyExists and
has no side effects; without it a pre-existing namespace is success.  A
forced DDL/sync failure (the injected fault) surfaces TransactionFailure
and, when leftover is set, leaves a partially-created namespace behind.
Returns the state reached together with the error, if any. -/
def create_schema (check_if_exists fault leftover : Bool) (s : SysState) (n : String) :
    SysState × Option TenantError :=
  if schema_exists s n then
    if check_if_exists then (s, some TenantError.alreadyExists) else (s, none)
  else if fault then
    ((if leftover then { s with schemas := n :: s.schemas } else s),
      some TenantError.txFailure)
  else ({ s with schemas := n :: s.schemas }, none)

/-- Modelled from the spec: signal send (signals module plus the ambient
dispatch) is synchronous and fire-and-forget; the event is delivered to
the subscribers registered at call time and a subscriber failure
(subscriberFails) never propagates back to the publisher. -/
def signalSend (subscriberFails : Bool) (s : SysState) (e : Event) : SysState :=
  { s with events := s.events ++ [e] }

/-- Modelled from the spec: the byte length of one character in UTF-8,
for the 63-byte identifier limit. -/
def charBytes (c : Char) : Nat :=
  if c.val < 0x80 then 1
  else if c.val < 0x800 then 2
  else if c.val < 0x10000 then 3
  else 4

/-- Modelled from the spec: the identifier grammar — letters, digits and
underscore, starting with a letter or underscore. -/
def isIdentChars : List Char → Bool
  | [] => false
  | c :: cs => (c.isAlpha || c == '_') && cs.all (fun x => x.isAlphanum || x == '_')

/-- Modelled from the spec: identifiers beginning with pg_ are rejected. -/
def startsWithPg : List Char → Bool
  | 'p' :: 'g' :: '_' :: _ => true
  | _ => false

/-- Modelled from the spec: the reserved namespace names.  The
specification reserves such names without enumerating them; the shared
public namespace is the canonical one. -/
def reserved_schema_names : List String := ["public"]

/-- Modelled from the spec: postgresql_backend.check_schema_name, the
validator attached to TenantMixin.schema_name — identifier grammar, no
pg_ prefix, not a reserved name, at most 63 bytes. -/
def check_schema_name (n : String) : Bool :=
  isIdentChars n.data && !startsWithPg n.data &&
    !reserved_schema_names.contains n &&
    decide ((n.data.map charBytes).sum ≤ 63)

namespace TenantMixin

/-- A primary key not used by any stored tenant row. -/
def freshPk (db : List Tenant) : Nat :=
  db.foldr (fun e m => max (e.pk.getD 0) m) 0 + 1

/-- The effect of super().save() on the tenant table: INSERT with a
fresh pk when self.pk is None, UPDATE of the row with that pk when it
exists, INSERT with the explicit pk otherwise.  Returns the table and
the saved row. -/
def superSave (db : List Tenant) (t : Tenant) : List Tenant × Tenant :=
  match t.pk with
  | none =>
      let t1 := { t with pk := some (freshPk db) }
      (db ++ [t1], t1)
  | some k =>
      if db.any (fun e => e.pk == some k) then
        (db.map (fun e => if e.pk == some k then t else e), t)
      else
        (db ++ [t], t)

/-- The effect of super().delete(): the row with this pk is removed. -/
def superDelete (db : List Tenant) (t : Tenant) : List Tenant :=
  db.filter (fun e => e.pk != t.pk)

/-- TenantMixin.delete: when force_drop or auto_drop_schema is set,
publish pre_drop and drop the schema, then delete the row. -/
def delete (subscriberFails force_drop : Bool) (s : SysState) (t : Tenant) : SysState :=
  let s1 :=
    if force_drop || t.auto_drop_schema then
      drop_schema (signalSend subscriberFails s (Event.pre_drop t)) t.schema_name
    else s
  { s1 with tenants := superDelete s1.tenants t }

/-- TenantMixin.save.  The schema_name validation is modelled from the
spec (a malformed namespace name is a validation error before any
mutation); the rest follows the source: persist the row, then, for a new
row with auto_create_schema, create the schema and publish post_sync —
deleting the row with force_drop and re-raising on failure; for a new
row without auto_create_schema publish needs_sync; for an existing row
with auto_create_schema whose schema is missing, create it and publish
post_sync — dropping only the schema and re-raising on failure. -/
def save (fault leftover subscriberFails : Bool) (s : SysState) (t : Tenant) :
    SysState × Option TenantError :=
  if check_schema_name t.schema_name = false then (s, some TenantError.validation)
  else
    let is_new := t.pk.isNone
    let self := (superSave s.tenants t).2
    let s1 := { s with tenants := (superSave s.tenants t).1 }
    if is_new && self.auto_create_schema then
      let r := create_schema true fault leftover s1 self.schema_name
      match r.2 with
      | none => (signalSend subscriberFails r.1 (Event.post_sync self), none)
      | some e => (delete subscriberFails true r.1 self, some e)
    else if is_new then
      (signalSend subscriberFails s1 (Event.needs_sync self), none)
    else if self.auto_create_schema && !(schema_exists s1 self.schema_name) then
      let r := create_schema true fault leftover s1 self.schema_name
      match r.2 with
      | none => (signalSend subscriberFails r.1 (Event.post_sync self), none)
      | some e => (drop_schema r.1 self.schema_name, some e)
    else (s1, none)

end TenantMixin

/-- Modelled from the spec: the session context of a connection — the
namespace currently applied to this unit of work. -/
structure Connection where
  schema_name : String
deriving DecidableEq

/-- Modelled from the spec: connection.set_schema activates a namespace
on the connection; re-activation has the same effect. -/
def set_schema (c : Connection) (n : String) : Connection :=
  { c with schema_name := n }

/-- The well-known public namespace used by deactivation. -/
def public_schema_name : String := "public"

/-- TenantMixin.activate: connection.set_schema(self.schema_name). -/
def activate (c : Connection) (t : Tenant) : Connection :=
  set_schema c t.schema_name

/-- TenantMixin.deactivate: connection.set_schema_to_public(). -/
def deactivate (c : Connection) : Connection :=
  set_schema c public_schema_name

/-- The enter/exit pairing of TenantMixin used as a context manager:
enter records connection.schema_name as previous_schema and activates
the tenant; exit restores the recorded schema.  Python runs exit on both
the normal and the raising path, re-raising the body's error, which the
Except-valued body result captures. -/
def withTenant {ε α : Type} (t : Tenant) (body : Connection → Connection × Except ε α)
    (c : Connection) : Connection × Except ε α :=
  let previous_schema := c.schema_name
  let c1 := activate c t
  let r := body c1
  (set_schema r.1 previous_schema, r.2)

lemma tenantPrimaries_length (db : List Domain) (t : Nat) :
    (tenantPrimaries db t).length = primCount db t :=
  (List.countP_eq_length_filter _ _).symm

lemma tenantDomains_eq_nil_iff (db : List Domain) (t : Nat) :
    tenantDomains db t = [] ↔ domCount db t = 0 := by
  rw [domCount, List.countP_eq_length_filter, List.length_eq_zero]
  exact Iff.rfl

lemma two_le_length_of_mem_ne {α : Type} {a b : α} :
    ∀ {l : List α}, a ∈ l → b ∈ l → a ≠ b → 2 ≤ l.length
  | [], ha, _, _ => absurd ha (List.not_mem_nil a)
  | x :: xs, ha, hb, hab => by
      rcases List.mem_cons.1 ha with rfl | ha'
      · rcases List.mem_cons.1 hb with rfl | hb'
        · exact absurd rfl hab
        · have := List.length_pos_of_mem hb'
          simp only [List.length_cons]
          omega
      · have := List.length_pos_of_mem ha'
        simp only [List.length_cons]
        omega

lemma two_le_countP {α : Type} (p : α → Bool) {l : List α} {a b : α}
    (ha : a ∈ l) (hb : b ∈ l) (hab : a ≠ b) (hpa : p a = true) (hpb : p b = true) :
    2 ≤ l.countP p := by
  rw [List.countP_eq_length_filter]
  exact two_le_length_of_mem_ne (List.mem_filter.2 ⟨ha, hpa⟩) (List.mem_filter.2 ⟨hb, hpb⟩) hab

lemma getD_le_fold (db : List Domain) :
    ∀ e ∈ db, e.pk.getD 0 ≤ db.foldr (fun e m => max (e.pk.getD 0) m) 0 := by
  induction db with
  | nil => intro e he; cases he
  | cons x xs ih =>
      intro e he
      rcases List.mem_cons.1 he with rfl | he'
      · exact Nat.le_max_left _ _
      · exact le_trans (ih e he') (Nat.le_max_right _ _)

lemma pk_ne_freshPk (db : List Domain) :
    ∀ e ∈ db, e.pk ≠ some (DomainMixin.freshPk db) := by
  intro e he hpk
  have h1 := getD_le_fold db e he
  rw [hpk] at h1
  simp only [Option.getD_some, DomainMixin.freshPk] at h1
  omega

lemma countP_pk_le_one {db : List Domain} (h : (db.map Domain.pk).Nodup) (k : Option Nat) :
    db.countP (fun e => e.pk == k) ≤ 1 := by
  induction db with
  | nil => simp
  | cons x xs ih =>
      simp only [List.map_cons, List.nodup_cons] at h
      rw [List.countP_cons]
      by_cases hx : (x.pk == k) = true
      · have hz : xs.countP (fun e => e.pk == k) = 0 := by
          rw [List.countP_eq_zero]
          intro e he hek
          rw [beq_iff_eq] at hx hek
          apply h.1
          rw [hx, ← hek]
          exact List.mem_map_of_mem Domain.pk he
        rw [if_pos hx, hz]
      · rw [if_neg hx]
        have := ih h.2
        omega

lemma countP_pk_eq_one {db : List Domain} (h : (db.map Domain.pk).Nodup) {k : Nat}
    (ha : db.any (fun e => e.pk == some k) = true) :
    db.countP (fun e => e.pk == some k) = 1 := by
  have h1 := countP_pk_le_one h (some k)
  have h2 : 0 < db.countP (fun e => e.pk == some k) := by
    rw [List.countP_pos_iff]
    simpa using List.any_eq_true.1 ha
  omega

lemma demote_map_pk (db : List Domain) (d : Domain) :
    (DomainMixin.demote db d).map Domain.pk = db.map Domain.pk := by
  unfold DomainMixin.demote
  rw [List.map_map]
  apply List.map_congr_left
  intro e _
  simp only [Function.comp_apply]
  split <;> rfl

lemma countP_demote_pk (db : List Domain) (d : Domain) (k : Option Nat) :
    (DomainMixin.demote db d).countP (fun e => e.pk == k) =
      db.countP (fun e => e.pk == k) := by
  unfold DomainMixin.demote
  rw [List.countP_map]
  apply List.countP_congr
  intro e _
  simp only [Function.comp_apply]
  split <;> exact Iff.rfl

lemma countP_demote_tenant (db : List Domain) (d : Domain) (t : Nat) :
    (DomainMixin.demote db d).countP (fun e => e.tenant == t) =
      db.countP (fun e => e.tenant == t) := by
  unfold DomainMixin.demote
  rw [List.countP_map]
  apply List.countP_congr
  intro e _
  simp only [Function.comp_apply]
  split <;> exact Iff.rfl

lemma countP_demote_prim_ne (db : List Domain) (d : Domain) {t : Nat} (h : t ≠ d.tenant) :
    (DomainMixin.demote db d).countP (fun e => e.tenant == t && e.is_primary) =
      db.countP (fun e => e.tenant == t && e.is_primary) := by
  unfold DomainMixin.demote
  rw [List.countP_map]
  apply List.countP_congr
  intro e _
  simp only [Function.comp_apply]
  by_cases h1 : e.tenant = d.tenant <;> by_cases h2 : e.is_primary = true <;>
    by_cases h3 : e.pk = d.pk <;>
    simp [h1, h2, h3, bne_iff_ne, beq_iff_eq] <;> omega

lemma countP_demote_prim_self (db : List Domain) (d : Domain) :
    (DomainMixin.demote db d).countP (fun e => e.tenant == d.tenant && e.is_primary) =
      db.countP (fun e => e.tenant == d.tenant && e.is_primary && e.pk == d.pk) := by
  unfold DomainMixin.demote
  rw [List.countP_map]
  apply List.countP_congr
  intro e _
  simp only [Function.comp_apply]
  by_cases h1 : e.tenant = d.tenant <;> by_cases h2 : e.is_primary = true <;>
    by_cases h3 : e.pk = d.pk <;>
    simp [h1, h2, h3, bne_iff_ne, beq_iff_eq]

lemma countP_replaceMap (p : Domain → Bool) (k : Nat) (dnew : Domain) (db : List Domain) :
    (db.map (fun e => if e.pk == some k then dnew else e)).countP p =
      (if p dnew then db.countP (fun e => e.pk == some k) else 0) +
        db.countP (fun e => p e && !(e.pk == some k)) := by
  induction db with
  | nil => simp
  | cons e db ih =>
      simp only [List.map_cons, List.countP_cons, ih]
      by_cases h : (e.pk == some k) = true
      · rw [if_pos h]
        by_cases hp : p dnew = true
        · simp [hp, h]
          omega
        · simp [hp, h]
      · rw [if_neg h]
        by_cases hp : p dnew = true <;> by_cases hpe : p e = true <;>
          simp [hp, hpe, h] <;> omega

lemma countP_superSave_none (db : List Domain) (d : Domain) (p : Domain → Bool)
    (hd : d.pk = none) (hp : ∀ k, p { d with pk := some k } = p d) :
    (DomainMixin.superSave db d).1.countP p = db.countP p + (if p d then 1 else 0) := by
  unfold DomainMixin.superSave
  rw [hd]
  simp [List.countP_append, List.countP_singleton, hp]

lemma countP_superSave_replace (db : List Domain) (d : Domain) (p : Domain → Bool) {k : Nat}
    (hd : d.pk = some k) (ha : db.any (fun e => e.pk == some k) = true) :
    (DomainMixin.superSave db d).1.countP p =
      (if p d then db.countP (fun e => e.pk == some k) else 0) +
        db.countP (fun e => p e && !(e.pk == some k)) := by
  unfold DomainMixin.superSave
  rw [hd]
  simp only [ha, if_true]
  exact countP_replaceMap p k d db

lemma countP_superSave_append (db : List Domain) (d : Domain) (p : Domain → Bool) {k : Nat}
    (hd : d.pk = some k) (ha : db.any (fun e => e.pk == some k) = false) :
    (DomainMixin.superSave db d).1.countP p = db.countP p + (if p d then 1 else 0) := by
  unfold DomainMixin.superSave
  rw [hd]
  simp only [ha, Bool.false_eq_true, if_false]
  simp [List.countP_append, List.countP_singleton]

lemma WFdb_superSave {db : List Domain} (h : WFdb db) (d : Domain) :
    WFdb (DomainMixin.superSave db d).1 := by
  obtain ⟨hnd, hns⟩ := h
  unfold DomainMixin.superSave
  rcases hdpk : d.pk with _ | k
  · constructor
    · rw [List.map_append]
      refine List.Nodup.append hnd (by simp) ?_
      intro x hx hy
      simp only [List.map_cons, List.map_nil, List.mem_singleton] at hy
      rcases List.mem_map.1 hx with ⟨e, he, rfl⟩
      exact pk_ne_freshPk db e he (by simpa using hy)
    · intro e he
      rcases List.mem_append.1 he with he' | he'
      · exact hns e he'
      · simp only [List.mem_singleton] at he'
        subst he'
        simp
  · dsimp only
    by_cases ha : db.any (fun e => e.pk == some k) = true
    · rw [if_pos ha]
      have hmap : (db.map (fun e => if e.pk == some k then d else e)).map Domain.pk =
          db.map Domain.pk := by
        rw [List.map_map]
        apply List.map_congr_left
        intro e _
        simp only [Function.comp_apply]
        by_cases hek : (e.pk == some k) = true
        · rw [if_pos hek, hdpk]
          rw [beq_iff_eq] at hek
          exact hek.symm
        · rw [if_neg hek]
      constructor
      · rw [hmap]; exact hnd
      · intro e he
        rcases List.mem_map.1 he with ⟨f, _, rfl⟩
        by_cases hek : (f.pk == some k) = true
        · rw [if_pos hek, hdpk]; simp
        · rw [if_neg hek]
          exact hns f (by assumption)
    · rw [if_neg ha]
      rw [Bool.not_eq_true] at ha
      constructor
      · rw [List.map_append]
        refine List.Nodup.append hnd (by simp) ?_
        intro x hx hy
        simp only [List.map_cons, List.map_nil, List.mem_singleton] at hy
        rcases List.mem_map.1 hx with ⟨e, he, rfl⟩
        have : db.any (fun e => e.pk == some k) = true :=
          List.any_eq_true.2 ⟨e, he, by simp [hy, hdpk]⟩
        rw [ha] at this
        cases this
      · intro e he
        rcases List.mem_append.1 he with he' | he'
        · exact hns e he'
        · simp only [List.mem_singleton] at he'
          subst he'
          rw [hdpk]
          simp

lemma WFdb_demote {db : List Domain} (h : WFdb db) (d : Domain) :
    WFdb (DomainMixin.demote db d) := by
  obtain ⟨hnd, hns⟩ := h
  constructor
  · rw [demote_map_pk]; exact hnd
  · intro e he
    unfold DomainMixin.demote at he
    rcases List.mem_map.1 he with ⟨f, hf, rfl⟩
    have := hns f hf
    split <;> simpa using this

lemma WFdb_save {db : List Domain} (h : WFdb db) (d : Domain) :
    WFdb (DomainMixin.save db d).1 := by
  unfold DomainMixin.save
  by_cases heff : (d.is_primary || (DomainMixin.primaryOthers db d).isEmpty) = true
  · simp only [heff, if_true]
    exact WFdb_superSave (WFdb_demote h d) _
  · simp only [heff, Bool.false_eq_true, if_false]
    exact WFdb_superSave h _

lemma save_eq (db : List Domain) (d : Domain) :
    DomainMixin.save db d =
      DomainMixin.superSave
        (if (d.is_primary || (DomainMixin.primaryOthers db d).isEmpty) = true then
          DomainMixin.demote db d
        else db)
        { d with is_primary := d.is_primary || (DomainMixin.primaryOthers db d).isEmpty } :=
  rfl

lemma countP_demote_prim_self_not_pk (db : List Domain) (d : Domain) (k : Option Nat)
    (hk : d.pk = k) :
    (DomainMixin.demote db d).countP
      (fun e => (e.tenant == d.tenant && e.is_primary) && !(e.pk == k)) = 0 := by
  subst hk
  unfold DomainMixin.demote
  rw [List.countP_map, List.countP_eq_zero]
  intro e _
  simp only [Function.comp_apply]
  by_cases h1 : e.tenant = d.tenant <;> by_cases h2 : e.is_primary = true <;>
    by_cases h3 : e.pk = d.pk <;>
    simp [h1, h2, h3, bne_iff_ne, beq_iff_eq]

lemma countP_demote_prim_ne_not_pk (db : List Domain) (d : Domain) {t : Nat}
    (h : t ≠ d.tenant) (k : Option Nat) :
    (DomainMixin.demote db d).countP
        (fun e => (e.tenant == t && e.is_primary) && !(e.pk == k)) =
      db.countP (fun e => (e.tenant == t && e.is_primary) && !(e.pk == k)) := by
  unfold DomainMixin.demote
  rw [List.countP_map]
  apply List.countP_congr
  intro e _
  simp only [Function.comp_apply]
  by_cases h1 : e.tenant = d.tenant <;> by_cases h2 : e.is_primary = true <;>
    by_cases h3 : e.pk = d.pk <;>
    simp [h1, h2, h3, bne_iff_ne, beq_iff_eq] <;> omega

lemma countP_demote_tenant_not_pk (db : List Domain) (d : Domain) (t : Nat) (k : Option Nat) :
    (DomainMixin.demote db d).countP (fun e => e.tenant == t && !(e.pk == k)) =
      db.countP (fun e => e.tenant == t && !(e.pk == k)) := by
  unfold DomainMixin.demote
  rw [List.countP_map]
  apply List.countP_congr
  intro e _
  simp only [Function.comp_apply]
  split <;> exact Iff.rfl

lemma countP_prim_not_pk_of_preserved {db : List Domain} {d : Domain} {t : Nat} {k : Nat}
    (ht : t ≠ d.tenant) (hdpk : d.pk = some k) (hpres : tenantPreserved db d = true) :
    db.countP (fun e => (e.tenant == t && e.is_primary) && !(e.pk == some k)) =
      db.countP (fun e => e.tenant == t && e.is_primary) := by
  apply List.countP_congr
  intro e he
  rw [tenantPreserved, List.all_eq_true] at hpres
  have hp := hpres e he
  by_cases h1 : e.tenant = t
  · by_cases h2 : e.is_primary = true
    · have hne : e.pk ≠ some k := by
        rcases (by simpa [bne_iff_ne, beq_iff_eq] using hp :
            e.pk ≠ d.pk ∨ e.tenant = d.tenant) with h' | h'
        · rw [← hdpk]; exact h'
        · exact absurd (h1.symm.trans h') ht
      simp [h1, h2, hne]
    · simp [h2]
  · simp [h1]

lemma countP_tenant_not_pk_of_preserved {db : List Domain} {d : Domain} {t : Nat} {k : Nat}
    (ht : t ≠ d.tenant) (hdpk : d.pk = some k) (hpres : tenantPreserved db d = true) :
    db.countP (fun e => e.tenant == t && !(e.pk == some k)) =
      db.countP (fun e => e.tenant == t) := by
  apply List.countP_congr
  intro e he
  rw [tenantPreserved, List.all_eq_true] at hpres
  have hp := hpres e he
  by_cases h1 : e.tenant = t
  · have hne : e.pk ≠ some k := by
      rcases (by simpa [bne_iff_ne, beq_iff_eq] using hp :
          e.pk ≠ d.pk ∨ e.tenant = d.tenant) with h' | h'
      · rw [← hdpk]; exact h'
      · exact absurd (h1.symm.trans h') ht
    simp [h1, hne]
  · simp [h1]

lemma any_demote_pk (db : List Domain) (d : Domain) (k : Option Nat) :
    (DomainMixin.demote db d).any (fun e => e.pk == k) = db.any (fun e => e.pk == k) := by
  unfold DomainMixin.demote
  rw [List.any_map]
  congr 1
  funext e
  simp only [Function.comp_apply]
  split <;> rfl

lemma primCount_save_self_of_eff {db : List Domain} (hwf : WFdb db) (d : Domain)
    (heff : (d.is_primary || (DomainMixin.primaryOthers db d).isEmpty) = true) :
    primCount (DomainMixin.save db d).1 d.tenant = 1 := by
  unfold primCount
  rw [save_eq]
  rw [if_pos heff, heff]
  rcases hdpk : d.pk with _ | k
  · rw [countP_superSave_none (DomainMixin.demote db d)
      ⟨none, d.domain, d.tenant, true⟩
      (fun e => e.tenant == d.tenant && e.is_primary) rfl (fun _ => rfl)]
    have h0 : (DomainMixin.demote db d).countP
        (fun e => e.tenant == d.tenant && e.is_primary) = 0 := by
      rw [countP_demote_prim_self, List.countP_eq_zero]
      intro e he
      have hne := hwf.2 e he
      rw [hdpk]
      simp [hne]
    rw [h0]
    simp
  · by_cases ha : (DomainMixin.demote db d).any (fun e => e.pk == some k) = true
    · rw [countP_superSave_replace (DomainMixin.demote db d)
        ⟨some k, d.domain, d.tenant, true⟩ _ rfl ha]
      rw [countP_demote_pk db d (some k)]
      have h1 : db.countP (fun e => e.pk == some k) = 1 := by
        apply countP_pk_eq_one hwf.1
        rw [← any_demote_pk db d (some k)]
        exact ha
      rw [countP_demote_prim_self_not_pk db d (some k) hdpk, h1]
      simp
    · rw [Bool.not_eq_true] at ha
      rw [countP_superSave_append (DomainMixin.demote db d)
        ⟨some k, d.domain, d.tenant, true⟩ _ rfl ha]
      have h0 : (DomainMixin.demote db d).countP
          (fun e => e.tenant == d.tenant && e.is_primary) = 0 := by
        rw [countP_demote_prim_self, List.countP_eq_zero]
        intro e he hcontra
        rw [any_demote_pk db d (some k)] at ha
        have hnot := List.any_eq_false.1 ha e he
        simp only [Bool.and_eq_true] at hcontra
        rw [hdpk] at hcontra
        exact hnot hcontra.2
      rw [h0]
      simp
lemma primCount_save_self {db : List Domain} (hwf : WFdb db) (d : Domain)
    (hle : primCount db d.tenant ≤ 1) :
    primCount (DomainMixin.save db d).1 d.tenant = 1 := by
  by_cases heff : (d.is_primary || (DomainMixin.primaryOthers db d).isEmpty) = true
  · exact primCount_save_self_of_eff hwf d heff
  · unfold primCount at *
    rw [save_eq, if_neg heff]
    rw [Bool.not_eq_true] at heff
    rw [heff]
    obtain ⟨hprim, hothers⟩ := Bool.or_eq_false_iff.1 heff
    obtain ⟨e0, he0mem⟩ : ∃ e0, e0 ∈ DomainMixin.primaryOthers db d := by
      cases hl : DomainMixin.primaryOthers db d with
      | nil => rw [hl] at hothers; cases hothers
      | cons x xs => exact ⟨x, hl ▸ List.mem_cons_self x xs⟩
    rw [DomainMixin.primaryOthers, List.mem_filter] at he0mem
    obtain ⟨he0, hpe0⟩ := he0mem
    simp only [Bool.and_eq_true, beq_iff_eq, bne_iff_ne] at hpe0
    have hone : db.countP (fun e => e.tenant == d.tenant && e.is_primary) = 1 := by
      have hge : 0 < db.countP (fun e => e.tenant == d.tenant && e.is_primary) :=
        List.countP_pos_iff.2 ⟨e0, he0, by simp [hpe0.1.1, hpe0.1.2]⟩
      omega
    rcases hdpk : d.pk with _ | k
    · rw [countP_superSave_none db ⟨none, d.domain, d.tenant, false⟩
        (fun e => e.tenant == d.tenant && e.is_primary) rfl (fun _ => rfl)]
      simpa using hone
    · by_cases ha : db.any (fun e => e.pk == some k) = true
      · rw [countP_superSave_replace db ⟨some k, d.domain, d.tenant, false⟩ _ rfl ha]
        have hzero : db.countP
            (fun e => (e.tenant == d.tenant && e.is_primary) && (e.pk == some k)) = 0 := by
          rw [List.countP_eq_zero]
          intro e he hcontra
          simp only [Bool.and_eq_true, beq_iff_eq] at hcontra
          have hnee : e ≠ e0 := by
            intro hEq
            apply hpe0.2
            rw [← hEq, hcontra.2, hdpk]
          have h2 := two_le_countP (fun e => e.tenant == d.tenant && e.is_primary) he he0 hnee
            (by simp [hcontra.1.1, hcontra.1.2]) (by simp [hpe0.1.1, hpe0.1.2])
          omega
        have hsame : db.countP
            (fun e => (e.tenant == d.tenant && e.is_primary) && !(e.pk == some k)) =
              db.countP (fun e => e.tenant == d.tenant && e.is_primary) := by
          apply List.countP_congr
          intro e he
          by_cases h1 : (e.tenant == d.tenant && e.is_primary) = true
          · have hnot := List.countP_eq_zero.1 hzero e he
            rw [Bool.and_eq_true] at h1
            have hnk : ¬(e.pk == some k) = true := by
              intro hk2
              exact hnot (by simp [h1.1, h1.2, hk2])
            simp [h1.1, h1.2, hnk]
          · simp [h1]
        rw [hsame, hone]
        simp
      · rw [Bool.not_eq_true] at ha
        rw [countP_superSave_append db ⟨some k, d.domain, d.tenant, false⟩ _ rfl ha]
        simpa using hone

lemma primCount_save_other_le {db : List Domain} {t : Nat} {d : Domain} (ht : t ≠ d.tenant) :
    primCount (DomainMixin.save db d).1 t ≤ primCount db t := by
  unfold primCount
  rw [save_eq]
  have htf : (d.tenant == t) = false := beq_eq_false_iff_ne.2 (Ne.symm ht)
  by_cases heff : (d.is_primary || (DomainMixin.primaryOthers db d).isEmpty) = true
  · rw [if_pos heff, heff]
    rcases hdpk : d.pk with _ | k
    · rw [countP_superSave_none (DomainMixin.demote db d)
        ⟨none, d.domain, d.tenant, true⟩
        (fun e => e.tenant == t && e.is_primary) rfl (fun _ => rfl)]
      rw [countP_demote_prim_ne db d ht]
      simp [htf]
    · by_cases ha : (DomainMixin.demote db d).any (fun e => e.pk == some k) = true
      · rw [countP_superSave_replace (DomainMixin.demote db d)
          ⟨some k, d.domain, d.tenant, true⟩
          (fun e => e.tenant == t && e.is_primary) rfl ha]
        rw [countP_demote_prim_ne_not_pk db d ht (some k)]
        simp only [htf, Bool.false_and, Bool.false_eq_true, if_false, Nat.zero_add]
        exact List.countP_mono_left (fun e _ h => by
          rw [Bool.and_eq_true] at h
          exact h.1)
      · rw [Bool.not_eq_true] at ha
        rw [countP_superSave_append (DomainMixin.demote db d)
          ⟨some k, d.domain, d.tenant, true⟩
          (fun e => e.tenant == t && e.is_primary) rfl ha]
        rw [countP_demote_prim_ne db d ht]
        simp [htf]
  · rw [if_neg heff]
    rw [Bool.not_eq_true] at heff
    rw [heff]
    rcases hdpk : d.pk with _ | k
    · rw [countP_superSave_none db ⟨none, d.domain, d.tenant, false⟩
        (fun e => e.tenant == t && e.is_primary) rfl (fun _ => rfl)]
      simp [htf]
    · by_cases ha : db.any (fun e => e.pk == some k) = true
      · rw [countP_superSave_replace db ⟨some k, d.domain, d.tenant, false⟩
          (fun e => e.tenant == t && e.is_primary) rfl ha]
        simp only [htf, Bool.false_and, Bool.false_eq_true, if_false, Nat.zero_add]
        exact List.countP_mono_left (fun e _ h => by
          rw [Bool.and_eq_true] at h
          exact h.1)
      · rw [Bool.not_eq_true] at ha
        rw [countP_superSave_append db ⟨some k, d.domain, d.tenant, false⟩
          (fun e => e.tenant == t && e.is_primary) rfl ha]
        simp [htf]

lemma primCount_save_other_eq {db : List Domain} {t : Nat} {d : Domain} (ht : t ≠ d.tenant)
    (hpres : tenantPreserved db d = true) :
    primCount (DomainMixin.save db d).1 t = primCount db t := by
  unfold primCount
  rw [save_eq]
  have htf : (d.tenant == t) = false := beq_eq_false_iff_ne.2 (Ne.symm ht)
  by_cases heff : (d.is_primary || (DomainMixin.primaryOthers db d).isEmpty) = true
  · rw [if_pos heff, heff]
    rcases hdpk : d.pk with _ | k
    · rw [countP_superSave_none (DomainMixin.demote db d)
        ⟨none, d.domain, d.tenant, true⟩
        (fun e => e.tenant == t && e.is_primary) rfl (fun _ => rfl)]
      rw [countP_demote_prim_ne db d ht]
      simp [htf]
    · by_cases ha : (DomainMixin.demote db d).any (fun e => e.pk == some k) = true
      · rw [countP_superSave_replace (DomainMixin.demote db d)
          ⟨some k, d.domain, d.tenant, true⟩
          (fun e => e.tenant == t && e.is_primary) rfl ha]
        rw [countP_demote_prim_ne_not_pk db d ht (some k)]
        rw [countP_prim_not_pk_of_preserved ht hdpk hpres]
        simp [htf]
      · rw [Bool.not_eq_true] at ha
        rw [countP_superSave_append (DomainMixin.demote db d)
          ⟨some k, d.domain, d.tenant, true⟩
          (fun e => e.tenant == t && e.is_primary) rfl ha]
        rw [countP_demote_prim_ne db d ht]
        simp [htf]
  · rw [if_neg heff]
    rw [Bool.not_eq_true] at heff
    rw [heff]
    rcases hdpk : d.pk with _ | k
    · rw [countP_superSave_none db ⟨none, d.domain, d.tenant, false⟩
        (fun e => e.tenant == t && e.is_primary) rfl (fun _ => rfl)]
      simp [htf]
    · by_cases ha : db.any (fun e => e.pk == some k) = true
      · rw [countP_superSave_replace db ⟨some k, d.domain, d.tenant, false⟩
          (fun e => e.tenant == t && e.is_primary) rfl ha]
        rw [countP_prim_not_pk_of_preserved ht hdpk hpres]
        simp [htf]
      · rw [Bool.not_eq_true] at ha
        rw [countP_superSave_append db ⟨some k, d.domain, d.tenant, false⟩
          (fun e => e.tenant == t && e.is_primary) rfl ha]
        simp [htf]

lemma domCount_save_other_eq {db : List Domain} {t : Nat} {d : Domain} (ht : t ≠ d.tenant)
    (hpres : tenantPreserved db d = true) :
    domCount (DomainMixin.save db d).1 t = domCount db t := by
  unfold domCount
  rw [save_eq]
  have htf : (d.tenant == t) = false := beq_eq_false_iff_ne.2 (Ne.symm ht)
  by_cases heff : (d.is_primary || (DomainMixin.primaryOthers db d).isEmpty) = true
  · rw [if_pos heff, heff]
    rcases hdpk : d.pk with _ | k
    · rw [countP_superSave_none (DomainMixin.demote db d)
        ⟨none, d.domain, d.tenant, true⟩
        (fun e => e.tenant == t) rfl (fun _ => rfl)]
      rw [countP_demote_tenant db d t]
      simp [htf]
    · by_cases ha : (DomainMixin.demote db d).any (fun e => e.pk == some k) = true
      · rw [countP_superSave_replace (DomainMixin.demote db d)
          ⟨some k, d.domain, d.tenant, true⟩
          (fun e => e.tenant == t) rfl ha]
        rw [countP_demote_tenant_not_pk db d t (some k)]
        rw [countP_tenant_not_pk_of_preserved ht hdpk hpres]
        simp [htf]
      · rw [Bool.not_eq_true] at ha
        rw [countP_superSave_append (DomainMixin.demote db d)
          ⟨some k, d.domain, d.tenant, true⟩
          (fun e => e.tenant == t) rfl ha]
        rw [countP_demote_tenant db d t]
        simp [htf]
  · rw [if_neg heff]
    rw [Bool.not_eq_true] at heff
    rw [heff]
    rcases hdpk : d.pk with _ | k
    · rw [countP_superSave_none db ⟨none, d.domain, d.tenant, false⟩
        (fun e => e.tenant == t) rfl (fun _ => rfl)]
      simp [htf]
    · by_cases ha : db.any (fun e => e.pk == some k) = true
      · rw [countP_superSave_replace db ⟨some k, d.domain, d.tenant, false⟩
          (fun e => e.tenant == t) rfl ha]
        rw [countP_tenant_not_pk_of_preserved ht hdpk hpres]
        simp [htf]
      · rw [Bool.not_eq_true] at ha
        rw [countP_superSave_append db ⟨some k, d.domain, d.tenant, false⟩
          (fun e => e.tenant == t) rfl ha]
        simp [htf]

lemma saveAll_cons (db : List Domain) (d : Domain) (ds : List Domain) :
    DomainMixin.saveAll db (d :: ds) = DomainMixin.saveAll (DomainMixin.save db d).1 ds := rfl

lemma saveAll_wf_atMostOne {t : Nat} :
    ∀ (ds : List Domain) (db : List Domain), WFdb db → primCount db t ≤ 1 →
      WFdb (DomainMixin.saveAll db ds) ∧ primCount (DomainMixin.saveAll db ds) t ≤ 1
  | [], _, h1, h2 => ⟨h1, h2⟩
  | d :: ds, db, h1, h2 => by
      rw [saveAll_cons]
      apply saveAll_wf_atMostOne ds
      · exact WFdb_save h1 d
      · by_cases ht : t = d.tenant
        · subst ht
          exact Nat.le_of_eq (primCount_save_self h1 d h2)
        · exact le_trans (primCount_save_other_le ht) h2

lemma saveAll_exactlyOne {t : Nat} :
    ∀ (ds : List Domain) (db : List Domain), WFdb db → primCount db t ≤ 1 →
      (domCount db t ≠ 0 → primCount db t = 1) →
      tenantPreservedRun db ds = true →
      domCount (DomainMixin.saveAll db ds) t ≠ 0 →
      primCount (DomainMixin.saveAll db ds) t = 1
  | [], _, _, _, h3, _ => h3
  | d :: ds, db, h1, h2, h3, hrun => by
      simp only [tenantPreservedRun, Bool.and_eq_true] at hrun
      rw [saveAll_cons]
      apply saveAll_exactlyOne ds
      · exact WFdb_save h1 d
      · by_cases ht : t = d.tenant
        · subst ht
          exact Nat.le_of_eq (primCount_save_self h1 d h2)
        · exact le_trans (primCount_save_other_le ht) h2
      · by_cases ht : t = d.tenant
        · subst ht
          intro _
          exact primCount_save_self h1 d h2
        · rw [primCount_save_other_eq ht hrun.1, domCount_save_other_eq ht hrun.1]
          exact h3
      · exact hrun.2

lemma superSave_snd_is_primary (db : List Domain) (d : Domain) :
    (DomainMixin.superSave db d).2.is_primary = d.is_primary := by
  unfold DomainMixin.superSave
  rcases d.pk with _ | k
  · rfl
  · dsimp only
    split <;> rfl

lemma superSave_snd_tenant (db : List Domain) (d : Domain) :
    (DomainMixin.superSave db d).2.tenant = d.tenant := by
  unfold DomainMixin.superSave
  rcases d.pk with _ | k
  · rfl
  · dsimp only
    split <;> rfl

lemma superSave_snd_mem (db : List Domain) (d : Domain) :
    (DomainMixin.superSave db d).2 ∈ (DomainMixin.superSave db d).1 := by
  unfold DomainMixin.superSave
  rcases d.pk with _ | k
  · exact List.mem_append_right _ (List.mem_singleton_self _)
  · dsimp only
    by_cases ha : (db.any fun e => e.pk == some k) = true
    · rw [if_pos ha]
      rcases List.any_eq_true.1 ha with ⟨e, he, hek⟩
      dsimp only
      have himg : (fun e => if e.pk == some k then d else e) e = d := if_pos hek
      exact List.mem_map.2 ⟨e, he, himg⟩
    · rw [if_neg ha]
      exact List.mem_append_right _ (List.mem_singleton_self _)

lemma mem_demote {db : List Domain} {d : Domain} {f : Domain}
    (hf : f ∈ DomainMixin.demote db d) :
    ∃ e ∈ db,
      f = (if e.tenant == d.tenant && e.is_primary && e.pk != d.pk then
        { e with is_primary := false } else e) := by
  unfold DomainMixin.demote at hf
  rcases List.mem_map.1 hf with ⟨e, he, heq⟩
  exact ⟨e, he, heq.symm⟩

lemma demoted_mem {db : List Domain} {d E : Domain} (hE : E ∈ db)
    (hcond : (E.tenant == d.tenant && E.is_primary && E.pk != d.pk) = true) :
    { E with is_primary := false } ∈ DomainMixin.demote db d := by
  unfold DomainMixin.demote
  have himg :
      (fun e => if e.tenant == d.tenant && e.is_primary && e.pk != d.pk then
        { e with is_primary := false } else e) E = { E with is_primary := false } :=
    if_pos hcond
  exact List.mem_map.2 ⟨E, hE, himg⟩

lemma primaryOthers_of_no_domains {db : List Domain} {d : Domain}
    (h : tenantDomains db d.tenant = []) : DomainMixin.primaryOthers db d = [] := by
  rw [tenantDomains, List.filter_eq_nil_iff] at h
  rw [DomainMixin.primaryOthers, List.filter_eq_nil_iff]
  intro e he hcontra
  apply h e he
  rw [Bool.and_eq_true, Bool.and_eq_true] at hcontra
  exact hcontra.1.1

lemma tenant_getD_le_fold (db : List Tenant) :
    ∀ e ∈ db, e.pk.getD 0 ≤ db.foldr (fun e m => max (e.pk.getD 0) m) 0 := by
  induction db with
  | nil => intro e he; cases he
  | cons x xs ih =>
      intro e he
      rcases List.mem_cons.1 he with rfl | he'
      · exact Nat.le_max_left _ _
      · exact le_trans (ih e he') (Nat.le_max_right _ _)

lemma tenant_pk_ne_freshPk (db : List Tenant) :
    ∀ e ∈ db, e.pk ≠ some (TenantMixin.freshPk db) := by
  intro e he hpk
  have h1 := tenant_getD_le_fold db e he
  rw [hpk] at h1
  simp only [Option.getD_some, TenantMixin.freshPk] at h1
  omega

lemma filter_bne_of_not_contains {l : List String} {n : String}
    (h : l.contains n = false) : l.filter (fun m => m != n) = l := by
  have hmem : n ∉ l := by simpa [List.contains] using h
  rw [List.filter_eq_self]
  intro a ha
  rw [bne_iff_ne]
  intro heq
  exact hmem (heq ▸ ha)

lemma tenants_filter_fresh (db : List Tenant) (t1 : Tenant)
    (h : t1.pk = some (TenantMixin.freshPk db)) :
    (db ++ [t1]).filter (fun e => e.pk != t1.pk) = db := by
  rw [List.filter_append]
  have h1 : db.filter (fun e => e.pk != t1.pk) = db := by
    rw [List.filter_eq_self]
    intro a ha
    rw [bne_iff_ne, h]
    exact tenant_pk_ne_freshPk db a ha
  have h2 : [t1].filter (fun e => e.pk != t1.pk) = [] := by
    simp
  rw [h1, h2, List.append_nil]

lemma tenant_superSave_none (db : List Tenant) (t : Tenant) (h : t.pk = none) :
    TenantMixin.superSave db t =
      (db ++ [{ t with pk := some (TenantMixin.freshPk db) }],
        { t with pk := some (TenantMixin.freshPk db) }) := by
  unfold TenantMixin.superSave
  rw [h]

lemma create_schema_fault_eq (check leftover : Bool) (s : SysState) (n : String)
    (h : schema_exists s n = false) :
    create_schema check true leftover s n =
      ((if leftover then { s with schemas := n :: s.schemas } else s),
        some TenantError.txFailure) := by
  unfold create_schema
  rw [h]
  simp

lemma create_schema_ok_eq (check leftover : Bool) (s : SysState) (n : String)
    (h : schema_exists s n = false) :
    create_schema check false leftover s n =
      ({ s with schemas := n :: s.schemas }, none) := by
  unfold create_schema
  rw [h]
  simp

lemma tenant_save_new_fault_eq (s : SysState) (t : Tenant) (leftover subscriberFails : Bool)
    (hpk : t.pk = none) (hauto : t.auto_create_schema = true)
    (hvalid : check_schema_name t.schema_name = true)
    (hnoschema : schema_exists s t.schema_name = false) :
    TenantMixin.save true leftover subscriberFails s t =
      ({ tenants := s.tenants, schemas := s.schemas,
         events := s.events ++
           [Event.pre_drop { t with pk := some (TenantMixin.freshPk s.tenants) }] },
        some TenantError.txFailure) := by
  have hv' : ¬ check_schema_name t.schema_name = false := by simp [hvalid]
  unfold TenantMixin.save
  rw [if_neg hv', tenant_superSave_none s.tenants t hpk, hpk]
  dsimp only [Option.isNone]
  rw [hauto]
  rw [if_pos (by rfl)]
  rw [create_schema_fault_eq true leftover _ _ (by exact hnoschema)]
  dsimp only
  unfold TenantMixin.delete signalSend drop_schema TenantMixin.superDelete
  rw [if_pos (by rfl)]
  unfold schema_exists at hnoschema
  have h1 := tenants_filter_fresh s.tenants
    ⟨some (TenantMixin.freshPk s.tenants), t.schema_name, true, t.auto_drop_schema⟩ rfl
  have h2 := filter_bne_of_not_contains hnoschema
  cases leftover with
  | false =>
      simp only [Bool.false_eq_true, if_false]
      simp only [Prod.mk.injEq, SysState.mk.injEq]
      exact ⟨⟨h1, h2, trivial⟩, trivial⟩
  | true =>
      simp only [if_true]
      simp only [Prod.mk.injEq, SysState.mk.injEq]
      rw [List.filter_cons_of_neg (by simp)]
      exact ⟨⟨h1, h2, trivial⟩, trivial⟩

lemma tenant_superSave_replace (db : List Tenant) (t : Tenant) {k : Nat}
    (hk : t.pk = some k) (hmem : t ∈ db) :
    TenantMixin.superSave db t =
      (db.map (fun e => if e.pk == some k then t else e), t) := by
  unfold TenantMixin.superSave
  rw [hk]
  dsimp only
  rw [if_pos (List.any_eq_true.2 ⟨t, hmem, by simp [hk]⟩)]

lemma tenant_save_sync_fault_eq (s : SysState) (t : Tenant) (leftover subscriberFails : Bool)
    {k : Nat} (hpk : t.pk = some k) (hmem : t ∈ s.tenants)
    (hauto : t.auto_create_schema = true)
    (hvalid : check_schema_name t.schema_name = true)
    (hnoschema : schema_exists s t.schema_name = false) :
    TenantMixin.save true leftover subscriberFails s t =
      ({ tenants := s.tenants.map (fun e => if e.pk == some k then t else e),
         schemas := s.schemas, events := s.events },
        some TenantError.txFailure) := by
  have hv' : ¬ check_schema_name t.schema_name = false := by simp [hvalid]
  unfold TenantMixin.save
  rw [if_neg hv', tenant_superSave_replace s.tenants t hpk hmem, hpk]
  dsimp only [Option.isNone]
  simp only [Bool.false_and, Bool.false_eq_true, if_false]
  rw [hauto]
  unfold schema_exists at hnoschema ⊢
  dsimp only
  rw [hnoschema]
  simp only [Bool.not_false, Bool.and_self, if_true]
  rw [create_schema_fault_eq true leftover _ _ (by exact hnoschema)]
  dsimp only
  unfold drop_schema
  have h2 := filter_bne_of_not_contains hnoschema
  cases leftover with
  | false =>
      simp only [Bool.false_eq_true, if_false]
      simp only [Prod.mk.injEq, SysState.mk.injEq]
      exact ⟨⟨trivial, h2, trivial⟩, trivial⟩
  | true =>
      simp only [if_true]
      simp only [Prod.mk.injEq, SysState.mk.injEq]
      rw [List.filter_cons_of_neg (by simp)]
      exact ⟨⟨trivial, h2, trivial⟩, trivial⟩

lemma tenant_save_new_ok_eq (s : SysState) (t : Tenant) (leftover subscriberFails : Bool)
    (hpk : t.pk = none) (hauto : t.auto_create_schema = true)
    (hvalid : check_schema_name t.schema_name = true)
    (hnoschema : schema_exists s t.schema_name = false) :
    TenantMixin.save false leftover subscriberFails s t =
      ({ tenants := s.tenants ++ [{ t with pk := some (TenantMixin.freshPk s.tenants) }],
         schemas := t.schema_name :: s.schemas,
         events := s.events ++
           [Event.post_sync { t with pk := some (TenantMixin.freshPk s.tenants) }] },
        none) := by
  have hv' : ¬ check_schema_name t.schema_name = false := by simp [hvalid]
  unfold TenantMixin.save
  rw [if_neg hv', tenant_superSave_none s.tenants t hpk, hpk]
  dsimp only [Option.isNone]
  rw [hauto]
  rw [if_pos (by rfl)]
  rw [create_schema_ok_eq true leftover _ _ (by exact hnoschema)]
  dsimp only
  unfold signalSend
  rfl

lemma tenant_save_sync_ok_eq (s : SysState) (t : Tenant) (leftover subscriberFails : Bool)
    {k : Nat} (hpk : t.pk = some k) (hmem : t ∈ s.tenants)
    (hauto : t.auto_create_schema = true)
    (hvalid : check_schema_name t.schema_name = true)
    (hnoschema : schema_exists s t.schema_name = false) :
    TenantMixin.save false leftover subscriberFails s t =
      ({ tenants := s.tenants.map (fun e => if e.pk == some k then t else e),
         schemas := t.schema_name :: s.schemas,
         events := s.events ++ [Event.post_sync t] },
        none) := by
  have hv' : ¬ check_schema_name t.schema_name = false := by simp [hvalid]
  unfold TenantMixin.save
  rw [if_neg hv', tenant_superSave_replace s.tenants t hpk hmem, hpk]
  dsimp only [Option.isNone]
  simp only [Bool.false_and, Bool.false_eq_true, if_false]
  rw [hauto]
  unfold schema_exists at hnoschema ⊢
  dsimp only
  rw [hnoschema]
  simp only [Bool.not_false, Bool.and_self, if_true]
  rw [create_schema_ok_eq true leftover _ _ (by exact hnoschema)]
  dsimp only
  unfold signalSend
  rfl

lemma superSave_none_eq (db : List Domain) (d : Domain) (h : d.pk = none) :
    DomainMixin.superSave db d =
      (db ++ [{ d with pk := some (DomainMixin.freshPk db) }],
        { d with pk := some (DomainMixin.freshPk db) }) := by
  unfold DomainMixin.superSave
  rw [h]

lemma save_demoted_mem {db : List Domain} {d E : Domain} (hE : E ∈ db)
    (heff : (d.is_primary || (DomainMixin.primaryOthers db d).isEmpty) = true)
    (hdpk : d.pk = none)
    (hcond : (E.tenant == d.tenant && E.is_primary && E.pk != d.pk) = true) :
    { E with is_primary := false } ∈ (DomainMixin.save db d).1 := by
  rw [save_eq, if_pos heff, heff, superSave_none_eq _ _ (by exact hdpk)]
  exact List.mem_append_left _ (demoted_mem hE hcond)

lemma save_new_primary_mem {db : List Domain} {d : Domain}
    (heff : (d.is_primary || (DomainMixin.primaryOthers db d).isEmpty) = true)
    (hdpk : d.pk = none) :
    (⟨some (DomainMixin.freshPk (DomainMixin.demote db d)), d.domain, d.tenant, true⟩ :
        Domain) ∈ (DomainMixin.save db d).1 := by
  rw [save_eq, if_pos heff, heff, superSave_none_eq _ _ (by exact hdpk)]
  exact List.mem_append_right _ (List.mem_singleton_self _)

lemma saveAtomicRun_false_fst (db : List Domain) (d : Domain) :
    (DomainMixin.saveAtomicRun false db d).1 = (DomainMixin.save db d).1 := rfl

/-- C1 (counterexample): the claim fails as stated.  Starting from a
state with no domains for tenant 1, saving domain a for tenant 1, then
domain b for tenant 1 with is_primary false, then re-saving a with its
tenant field changed to 2 leaves tenant 1 with one domain (b) and no
primary domain, so the exactly-one part of the claim is violated. -/
theorem domain_primary_uniqueness_counterexample :
    tenantDomains ([] : List Domain) 1 = [] ∧
      ¬ ((tenantPrimaries (DomainMixin.saveAll []
            [⟨none, "a", 1, true⟩, ⟨none, "b", 1, false⟩,
              ⟨some 1, "a", 2, true⟩]) 1).length ≤ 1 ∧
          (tenantDomains (DomainMixin.saveAll []
              [⟨none, "a", 1, true⟩, ⟨none, "b", 1, false⟩,
                ⟨some 1, "a", 2, true⟩]) 1 ≠ [] →
            (tenantPrimaries (DomainMixin.saveAll []
              [⟨none, "a", 1, true⟩, ⟨none, "b", 1, false⟩,
                ⟨some 1, "a", 2, true⟩]) 1).length = 1)) := by
  decide

/-- C1 (amended): over a well-formed table and starting from a state
with no domains for the tenant, after any sequence of DomainMixin.save
calls at most one of the tenant's domains has is_primary true; and
provided no save call moves an already-stored domain to another tenant,
if the tenant has at least one domain then exactly one is primary. -/
theorem domain_primary_uniqueness_amended (db0 : List Domain) (t : Nat) (ds : List Domain)
    (hwf : WFdb db0) (h0 : tenantDomains db0 t = []) :
    (tenantPrimaries (DomainMixin.saveAll db0 ds) t).length ≤ 1 ∧
      (tenantPreservedRun db0 ds = true →
        tenantDomains (DomainMixin.saveAll db0 ds) t ≠ [] →
        (tenantPrimaries (DomainMixin.saveAll db0 ds) t).length = 1) := by
  have hdom0 : domCount db0 t = 0 := (tenantDomains_eq_nil_iff db0 t).1 h0
  have hprim0 : primCount db0 t = 0 := by
    have hle : primCount db0 t ≤ domCount db0 t := by
      unfold primCount domCount
      exact List.countP_mono_left (fun e _ h => by
        rw [Bool.and_eq_true] at h
        exact h.1)
    omega
  constructor
  · rw [tenantPrimaries_length]
    exact (saveAll_wf_atMostOne ds db0 hwf (by omega)).2
  · intro hrun hne
    rw [tenantPrimaries_length]
    exact saveAll_exactlyOne ds db0 hwf (by omega) (fun hd => absurd hdom0 hd) hrun
      (fun hd => hne ((tenantDomains_eq_nil_iff _ _).2 hd))

/-- C1 (witness): the amended theorem applied to a concrete
tenant-preserving run of two saves. -/
theorem domain_primary_uniqueness_amended_witness :
    (tenantPrimaries (DomainMixin.saveAll []
        [⟨none, "a", 1, true⟩, ⟨none, "b", 1, false⟩]) 1).length ≤ 1 ∧
      (tenantPreservedRun [] [⟨none, "a", 1, true⟩, ⟨none, "b", 1, false⟩] = true →
        tenantDomains (DomainMixin.saveAll []
          [⟨none, "a", 1, true⟩, ⟨none, "b", 1, false⟩]) 1 ≠ [] →
        (tenantPrimaries (DomainMixin.saveAll []
          [⟨none, "a", 1, true⟩, ⟨none, "b", 1, false⟩]) 1).length = 1) :=
  domain_primary_uniqueness_amended [] 1 [⟨none, "a", 1, true⟩, ⟨none, "b", 1, false⟩]
    (by constructor <;> simp) (by decide)

/-- C3: the is_primary value persisted by DomainMixin.save equals the
caller-supplied value OR-ed with the emptiness of the set of the
tenant's other primary domains; in particular the first domain ever
saved for a tenant is stored primary regardless of the supplied value;
and when the effective value is true, after the save every primary row
of the tenant carries the saved row's pk, i.e. every other domain of the
tenant has been demoted. -/
theorem domain_save_effective_primary (db : List Domain) (d : Domain) (hwf : WFdb db) :
    (DomainMixin.save db d).2.is_primary =
        (d.is_primary || (DomainMixin.primaryOthers db d).isEmpty) ∧
      (tenantDomains db d.tenant = [] → (DomainMixin.save db d).2.is_primary = true) ∧
      ((d.is_primary || (DomainMixin.primaryOthers db d).isEmpty) = true →
        ∀ f ∈ (DomainMixin.save db d).1, f.tenant = d.tenant → f.is_primary = true →
          f.pk = (DomainMixin.save db d).2.pk) := by
  refine ⟨?_, ?_, ?_⟩
  · rw [save_eq, superSave_snd_is_primary]
  · intro h
    rw [save_eq, superSave_snd_is_primary]
    rw [primaryOthers_of_no_domains h]
    simp
  · intro heff f hf hften hfprim
    by_contra hne
    have hsmem : (DomainMixin.save db d).2 ∈ (DomainMixin.save db d).1 := by
      rw [save_eq]
      exact superSave_snd_mem _ _
    have hstenant : (DomainMixin.save db d).2.tenant = d.tenant := by
      rw [save_eq]
      exact superSave_snd_tenant _ _
    have hsprim : (DomainMixin.save db d).2.is_primary = true := by
      rw [save_eq, superSave_snd_is_primary]
      exact heff
    have hfne : f ≠ (DomainMixin.save db d).2 := fun h => hne (congrArg Domain.pk h)
    have h2 := two_le_countP (fun e => e.tenant == d.tenant && e.is_primary)
      hf hsmem hfne (by simp [hften, hfprim])
      (by
        show ((DomainMixin.save db d).2.tenant == d.tenant &&
          (DomainMixin.save db d).2.is_primary) = true
        rw [hstenant, hsprim]
        simp)
    have h1 := primCount_save_self_of_eff hwf d heff
    unfold primCount at h1
    omega

/-- C3 (witness): the theorem applied to a table holding one primary
domain of tenant 1 and a save of a new domain of tenant 1. -/
theorem domain_save_effective_primary_witness :
    (DomainMixin.save [⟨some 1, "a", 1, true⟩] ⟨none, "b", 1, true⟩).2.is_primary =
        ((⟨none, "b", 1, true⟩ : Domain).is_primary ||
          (DomainMixin.primaryOthers [⟨some 1, "a", 1, true⟩] ⟨none, "b", 1, true⟩).isEmpty) ∧
      (tenantDomains [⟨some 1, "a", 1, true⟩] (1 : Nat) = [] →
        (DomainMixin.save [⟨some 1, "a", 1, true⟩] ⟨none, "b", 1, true⟩).2.is_primary = true) ∧
      (((⟨none, "b", 1, true⟩ : Domain).is_primary ||
          (DomainMixin.primaryOthers [⟨some 1, "a", 1, true⟩] ⟨none, "b", 1, true⟩).isEmpty) = true →
        ∀ f ∈ (DomainMixin.save [⟨some 1, "a", 1, true⟩] ⟨none, "b", 1, true⟩).1,
          f.tenant = (⟨none, "b", 1, true⟩ : Domain).tenant → f.is_primary = true →
          f.pk = (DomainMixin.save [⟨some 1, "a", 1, true⟩] ⟨none, "b", 1, true⟩).2.pk) :=
  domain_save_effective_primary [⟨some 1, "a", 1, true⟩] ⟨none, "b", 1, true⟩
    (by constructor <;> decide)

/-- C5: atomicity of DomainMixin.save.  Saving a new domain D as primary
for a tenant that has E as its current primary: on the successful run E
is stored demoted and D is stored primary; on a run that fails at the
write, the transaction rolls back and the table is returned unchanged
with the error. -/
theorem domain_save_atomicity (db : List Domain) (d E : Domain)
    (hE : E ∈ db) (hEt : E.tenant = d.tenant) (hEp : E.is_primary = true)
    (hEpk : E.pk ≠ none) (hdpk : d.pk = none) (hdp : d.is_primary = true) :
    ({ E with is_primary := false } ∈ (DomainMixin.saveAtomicRun false db d).1 ∧
        (∃ m, (⟨some m, d.domain, d.tenant, true⟩ : Domain) ∈
          (DomainMixin.saveAtomicRun false db d).1) ∧
        (DomainMixin.saveAtomicRun false db d).2 = some ()) ∧
      DomainMixin.saveAtomicRun true db d = (db, none) := by
  have heff : (d.is_primary || (DomainMixin.primaryOthers db d).isEmpty) = true := by
    rw [hdp]
    rfl
  have hcond : (E.tenant == d.tenant && E.is_primary && E.pk != d.pk) = true := by
    simp [hEt, hEp, hdpk, bne_iff_ne, hEpk]
  refine ⟨⟨?_, ⟨DomainMixin.freshPk (DomainMixin.demote db d), ?_⟩, rfl⟩, rfl⟩
  · rw [saveAtomicRun_false_fst]
    exact save_demoted_mem hE heff hdpk hcond
  · rw [saveAtomicRun_false_fst]
    exact save_new_primary_mem heff hdpk

/-- C5 (witness): the theorem applied to a concrete table and save. -/
theorem domain_save_atomicity_witness :
    ({ (⟨some 1, "a", 7, true⟩ : Domain) with is_primary := false } ∈
          (DomainMixin.saveAtomicRun false [⟨some 1, "a", 7, true⟩] ⟨none, "b", 7, true⟩).1 ∧
        (∃ m, (⟨some m, (⟨none, "b", 7, true⟩ : Domain).domain,
            (⟨none, "b", 7, true⟩ : Domain).tenant, true⟩ : Domain) ∈
          (DomainMixin.saveAtomicRun false [⟨some 1, "a", 7, true⟩] ⟨none, "b", 7, true⟩).1) ∧
        (DomainMixin.saveAtomicRun false [⟨some 1, "a", 7, true⟩] ⟨none, "b", 7, true⟩).2 =
          some ()) ∧
      DomainMixin.saveAtomicRun true [⟨some 1, "a", 7, true⟩] ⟨none, "b", 7, true⟩ =
        ([⟨some 1, "a", 7, true⟩], none) :=
  domain_save_atomicity [⟨some 1, "a", 7, true⟩] ⟨none, "b", 7, true⟩ ⟨some 1, "a", 7, true⟩
    (by decide) (by decide) (by decide) (by decide) (by decide) (by decide)

/-- C9: the is_primary field defaults to true, so a domain saved with
the field left at its default requests primary status; saving such a
domain for a tenant that already has a primary domain E stores the new
domain as primary and stores E demoted. -/
theorem domain_default_primary (db : List Domain) (nm : String) (t : Nat) (E : Domain)
    (hE : E ∈ db) (hEt : E.tenant = t) (hEp : E.is_primary = true) (hEpk : E.pk ≠ none) :
    ({ pk := none, domain := nm, tenant := t } : Domain).is_primary = true ∧
      (DomainMixin.save db { pk := none, domain := nm, tenant := t }).2.is_primary = true ∧
      { E with is_primary := false } ∈
        (DomainMixin.save db { pk := none, domain := nm, tenant := t }).1 := by
  have heff : ((({ pk := none, domain := nm, tenant := t } : Domain)).is_primary ||
      (DomainMixin.primaryOthers db
        { pk := none, domain := nm, tenant := t }).isEmpty) = true := rfl
  refine ⟨rfl, ?_, ?_⟩
  · rw [save_eq, superSave_snd_is_primary]
    exact heff
  · exact save_demoted_mem hE heff rfl (by simp [hEt, hEp, bne_iff_ne, hEpk])

/-- C9 (witness): the theorem applied to a concrete table. -/
theorem domain_default_primary_witness :
    ({ pk := none, domain := "y", tenant := 9 } : Domain).is_primary = true ∧
      (DomainMixin.save [⟨some 3, "x", 9, true⟩]
        { pk := none, domain := "y", tenant := 9 }).2.is_primary = true ∧
      { (⟨some 3, "x", 9, true⟩ : Domain) with is_primary := false } ∈
        (DomainMixin.save [⟨some 3, "x", 9, true⟩]
          { pk := none, domain := "y", tenant := 9 }).1 :=
  domain_default_primary [⟨some 3, "x", 9, true⟩] "y" 9 ⟨some 3, "x", 9, true⟩
    (by decide) (by decide) (by decide) (by decide)

/-- C2: all-or-nothing creation.  Saving a new tenant whose type enables
automatic schema creation while schema creation fails: the error is
re-raised, the namespace does not exist afterwards, no tenant row with
that schema_name remains, and both the tenant table and the namespace
set are rolled back to their original contents. -/
theorem tenant_creation_all_or_nothing (s : SysState) (t : Tenant)
    (leftover subscriberFails : Bool)
    (hpk : t.pk = none) (hauto : t.auto_create_schema = true)
    (hvalid : check_schema_name t.schema_name = true)
    (hnoschema : schema_exists s t.schema_name = false)
    (hunique : ∀ e ∈ s.tenants, e.schema_name ≠ t.schema_name) :
    (TenantMixin.save true leftover subscriberFails s t).2 = some TenantError.txFailure ∧
      schema_exists (TenantMixin.save true leftover subscriberFails s t).1
        t.schema_name = false ∧
      (∀ e ∈ (TenantMixin.save true leftover subscriberFails s t).1.tenants,
        e.schema_name ≠ t.schema_name) ∧
      (TenantMixin.save true leftover subscriberFails s t).1.tenants = s.tenants ∧
      (TenantMixin.save true leftover subscriberFails s t).1.schemas = s.schemas := by
  rw [tenant_save_new_fault_eq s t leftover subscriberFails hpk hauto hvalid hnoschema]
  exact ⟨rfl, hnoschema, hunique, rfl, rfl⟩

/-- C2 (witness): the theorem applied to the empty state and a fresh
tenant acme with a forced creation failure leaving a partial schema. -/
theorem tenant_creation_all_or_nothing_witness :
    (TenantMixin.save true true false ⟨[], [], []⟩ ⟨none, "acme", true, false⟩).2 =
        some TenantError.txFailure ∧
      schema_exists (TenantMixin.save true true false ⟨[], [], []⟩
        ⟨none, "acme", true, false⟩).1 (Tenant.schema_name ⟨none, "acme", true, false⟩) = false ∧
      (∀ e ∈ (TenantMixin.save true true false ⟨[], [], []⟩
          ⟨none, "acme", true, false⟩).1.tenants,
        e.schema_name ≠ Tenant.schema_name ⟨none, "acme", true, false⟩) ∧
      (TenantMixin.save true true false ⟨[], [], []⟩
        ⟨none, "acme", true, false⟩).1.tenants = SysState.tenants ⟨[], [], []⟩ ∧
      (TenantMixin.save true true false ⟨[], [], []⟩
        ⟨none, "acme", true, false⟩).1.schemas = SysState.schemas ⟨[], [], []⟩ :=
  tenant_creation_all_or_nothing ⟨[], [], []⟩ ⟨none, "acme", true, false⟩ true false
    (by decide) (by decide) (by decide) (by decide) (by decide)

/-- C4: scoped activation restores the prior namespace.  With namespace
A active on the connection, entering a tenant runs the body with the
tenant's namespace active, and after the scope exits — whether the body
returned normally or raised, which the Except-valued result ranges
over — the active namespace is A again. -/
theorem scoped_activation_restores {ε α : Type} (t : Tenant)
    (body : Connection → Connection × Except ε α) (c : Connection) :
    (withTenant t body c).1.schema_name = c.schema_name ∧
      (withTenant t body c).2 = (body (set_schema c t.schema_name)).2 := by
  constructor <;> rfl

/-- C6: a failed schema sync for a pre-existing tenant drops only the
namespace.  For a stored tenant row whose namespace is missing and whose
type enables automatic creation, a failing save re-raises the error, the
tenant row is still retrievable, and the namespace does not exist. -/
theorem tenant_sync_failure_preserves_record (s : SysState) (t : Tenant)
    (leftover subscriberFails : Bool) {k : Nat}
    (hpk : t.pk = some k) (hmem : t ∈ s.tenants)
    (hauto : t.auto_create_schema = true)
    (hvalid : check_schema_name t.schema_name = true)
    (hnoschema : schema_exists s t.schema_name = false) :
    (TenantMixin.save true leftover subscriberFails s t).2 = some TenantError.txFailure ∧
      t ∈ (TenantMixin.save true leftover subscriberFails s t).1.tenants ∧
      schema_exists (TenantMixin.save true leftover subscriberFails s t).1
        t.schema_name = false := by
  rw [tenant_save_sync_fault_eq s t leftover subscriberFails hpk hmem hauto hvalid hnoschema]
  refine ⟨rfl, ?_, hnoschema⟩
  exact List.mem_map.2 ⟨t, hmem, by simp⟩

/-- C6 (witness): the theorem applied to a state holding tenant acme
without its namespace. -/
theorem tenant_sync_failure_preserves_record_witness :
    (TenantMixin.save true true false ⟨[⟨some 1, "acme", true, false⟩], [], []⟩
        ⟨some 1, "acme", true, false⟩).2 = some TenantError.txFailure ∧
      (⟨some 1, "acme", true, false⟩ : Tenant) ∈
        (TenantMixin.save true true false ⟨[⟨some 1, "acme", true, false⟩], [], []⟩
          ⟨some 1, "acme", true, false⟩).1.tenants ∧
      schema_exists (TenantMixin.save true true false ⟨[⟨some 1, "acme", true, false⟩], [], []⟩
          ⟨some 1, "acme", true, false⟩).1
        (Tenant.schema_name ⟨some 1, "acme", true, false⟩) = false :=
  tenant_sync_failure_preserves_record ⟨[⟨some 1, "acme", true, false⟩], [], []⟩
    ⟨some 1, "acme", true, false⟩ true false
    (show Tenant.pk ⟨some 1, "acme", true, false⟩ = some 1 by decide)
    (by decide) (by decide) (by decide) (by decide)

/-- C7: event publication never fails the lifecycle operation, on the
creation path and on the sync path alike.  For a tenant creation whose
namespace creation succeeds, and equally for a save of a pre-existing
tenant whose missing namespace is successfully created, the outcome and
the resulting state are the same whether or not a subscriber of the
published post-sync event fails: the save succeeds, the namespace
exists, the tenant row is stored, the post-sync event is published, and
no compensating cleanup (row deletion or namespace drop) happens. -/
theorem signal_send_never_fails_lifecycle (s : SysState) (t : Tenant) (leftover : Bool)
    (hauto : t.auto_create_schema = true)
    (hvalid : check_schema_name t.schema_name = true)
    (hnoschema : schema_exists s t.schema_name = false) :
    (t.pk = none →
      TenantMixin.save false leftover true s t = TenantMixin.save false leftover false s t ∧
        (TenantMixin.save false leftover true s t).2 = none ∧
        schema_exists (TenantMixin.save false leftover true s t).1 t.schema_name = true ∧
        { t with pk := some (TenantMixin.freshPk s.tenants) } ∈
          (TenantMixin.save false leftover true s t).1.tenants ∧
        (TenantMixin.save false leftover true s t).1.events =
          s.events ++
            [Event.post_sync { t with pk := some (TenantMixin.freshPk s.tenants) }]) ∧
      (∀ k : Nat, t.pk = some k → t ∈ s.tenants →
        TenantMixin.save false leftover true s t = TenantMixin.save false leftover false s t ∧
          (TenantMixin.save false leftover true s t).2 = none ∧
          schema_exists (TenantMixin.save false leftover true s t).1 t.schema_name = true ∧
          t ∈ (TenantMixin.save false leftover true s t).1.tenants ∧
          (TenantMixin.save false leftover true s t).1.events =
            s.events ++ [Event.post_sync t]) := by
  constructor
  · intro hpk
    rw [tenant_save_new_ok_eq s t leftover true hpk hauto hvalid hnoschema,
        tenant_save_new_ok_eq s t leftover false hpk hauto hvalid hnoschema]
    refine ⟨rfl, rfl, ?_, ?_, rfl⟩
    · simp [schema_exists, List.contains]
    · exact List.mem_append_right _ (List.mem_singleton_self _)
  · intro k hpk hmem
    rw [tenant_save_sync_ok_eq s t leftover true hpk hmem hauto hvalid hnoschema,
        tenant_save_sync_ok_eq s t leftover false hpk hmem hauto hvalid hnoschema]
    refine ⟨rfl, rfl, ?_, ?_, rfl⟩
    · simp [schema_exists, List.contains]
    · exact List.mem_map.2 ⟨t, hmem, by simp⟩

/-- C7 (witness): the theorem applied on both paths — the creation of
tenant corp in the empty state, and the sync of a stored tenant corp2
whose namespace is missing — with a failing subscriber on one side. -/
theorem signal_send_never_fails_lifecycle_witness :
    (TenantMixin.save false false true ⟨[], [], []⟩ ⟨none, "corp", true, false⟩ =
        TenantMixin.save false false false ⟨[], [], []⟩ ⟨none, "corp", true, false⟩ ∧
      (TenantMixin.save false false true ⟨[], [], []⟩ ⟨none, "corp", true, false⟩).2 = none ∧
      schema_exists (TenantMixin.save false false true ⟨[], [], []⟩
          ⟨none, "corp", true, false⟩).1
        (Tenant.schema_name ⟨none, "corp", true, false⟩) = true ∧
      { (⟨none, "corp", true, false⟩ : Tenant) with
          pk := some (TenantMixin.freshPk (SysState.tenants ⟨[], [], []⟩)) } ∈
        (TenantMixin.save false false true ⟨[], [], []⟩
          ⟨none, "corp", true, false⟩).1.tenants ∧
      (TenantMixin.save false false true ⟨[], [], []⟩
          ⟨none, "corp", true, false⟩).1.events =
        SysState.events ⟨[], [], []⟩ ++
          [Event.post_sync { (⟨none, "corp", true, false⟩ : Tenant) with
            pk := some (TenantMixin.freshPk (SysState.tenants ⟨[], [], []⟩)) }]) ∧
      (TenantMixin.save false false true ⟨[⟨some 1, "corp2", true, false⟩], [], []⟩
            ⟨some 1, "corp2", true, false⟩ =
          TenantMixin.save false false false ⟨[⟨some 1, "corp2", true, false⟩], [], []⟩
            ⟨some 1, "corp2", true, false⟩ ∧
        (TenantMixin.save false false true ⟨[⟨some 1, "corp2", true, false⟩], [], []⟩
          ⟨some 1, "corp2", true, false⟩).2 = none ∧
        schema_exists (TenantMixin.save false false true
            ⟨[⟨some 1, "corp2", true, false⟩], [], []⟩ ⟨some 1, "corp2", true, false⟩).1
          (Tenant.schema_name ⟨some 1, "corp2", true, false⟩) = true ∧
        (⟨some 1, "corp2", true, false⟩ : Tenant) ∈
          (TenantMixin.save false false true ⟨[⟨some 1, "corp2", true, false⟩], [], []⟩
            ⟨some 1, "corp2", true, false⟩).1.tenants ∧
        (TenantMixin.save false false true ⟨[⟨some 1, "corp2", true, false⟩], [], []⟩
            ⟨some 1, "corp2", true, false⟩).1.events =
          SysState.events ⟨[⟨some 1, "corp2", true, false⟩], [], []⟩ ++
            [Event.post_sync ⟨some 1, "corp2", true, false⟩]) :=
  ⟨(signal_send_never_fails_lifecycle ⟨[], [], []⟩ ⟨none, "corp", true, false⟩ false
      (by decide) (by decide) (by decide)).1 rfl,
    (signal_send_never_fails_lifecycle ⟨[⟨some 1, "corp2", true, false⟩], [], []⟩
      ⟨some 1, "corp2", true, false⟩ false
      (by decide) (by decide) (by decide)).2 1 rfl (by decide)⟩

/-- C8: a tenant record whose namespace name violates the naming rule is
rejected with a validation error before any mutation: the save returns
the validation error and the state — tenant table, namespaces and
events — is exactly the input state, so no DDL was issued. -/
theorem invalid_schema_name_rejected (fault leftover subscriberFails : Bool)
    (s : SysState) (t : Tenant) (hbad : check_schema_name t.schema_name = false) :
    TenantMixin.save fault leftover subscriberFails s t = (s, some TenantError.validation) := by
  unfold TenantMixin.save
  rw [if_pos hbad]

/-- C8 (witness): the theorem applied to a tenant whose namespace name
has the forbidden pg_ prefix. -/
theorem invalid_schema_name_rejected_witness :
    TenantMixin.save true false false ⟨[], [], []⟩ ⟨none, "pg_temp", true, false⟩ =
      (⟨[], [], []⟩, some TenantError.validation) :=
  invalid_schema_name_rejected true false false ⟨[], [], []⟩ ⟨none, "pg_temp", true, false⟩
    (by decide)

/-- C10: the compensating cleanup of a failed creation publishes a
pre-drop event.  For a new tenant whose schema creation fails, the
operation errors, the only event published by the whole operation is
PreDrop carrying the snapshot of the just-created row — a tenant whose
creation never succeeded — and afterwards the row is gone and the
namespace does not exist. -/
theorem cleanup_emits_pre_drop (s : SysState) (t : Tenant) (leftover subscriberFails : Bool)
    (hpk : t.pk = none) (hauto : t.auto_create_schema = true)
    (hvalid : check_schema_name t.schema_name = true)
    (hnoschema : schema_exists s t.schema_name = false) :
    (TenantMixin.save true leftover subscriberFails s t).2 = some TenantError.txFailure ∧
      (TenantMixin.save true leftover subscriberFails s t).1.events =
        s.events ++ [Event.pre_drop { t with pk := some (TenantMixin.freshPk s.tenants) }] ∧
      (TenantMixin.save true leftover subscriberFails s t).1.tenants = s.tenants ∧
      schema_exists (TenantMixin.save true leftover subscriberFails s t).1
        t.schema_name = false := by
  rw [tenant_save_new_fault_eq s t leftover subscriberFails hpk hauto hvalid hnoschema]
  exact ⟨rfl, rfl, rfl, hnoschema⟩

/-- C10 (witness): the theorem applied to the empty state and tenant
widget with a forced creation failure. -/
theorem cleanup_emits_pre_drop_witness :
    (TenantMixin.save true false true ⟨[], [], []⟩ ⟨none, "widget", true, false⟩).2 =
        some TenantError.txFailure ∧
      (TenantMixin.save true false true ⟨[], [], []⟩
          ⟨none, "widget", true, false⟩).1.events =
        SysState.events ⟨[], [], []⟩ ++
          [Event.pre_drop { (⟨none, "widget", true, false⟩ : Tenant) with
            pk := some (TenantMixin.freshPk (SysState.tenants ⟨[], [], []⟩)) }] ∧
      (TenantMixin.save true false true ⟨[], [], []⟩
        ⟨none, "widget", true, false⟩).1.tenants = SysState.tenants ⟨[], [], []⟩ ∧
      schema_exists (TenantMixin.save true false true ⟨[], [], []⟩
          ⟨none, "widget", true, false⟩).1
        (Tenant.schema_name ⟨none, "widget", true, false⟩) = false :=
  cleanup_emits_pre_drop ⟨[], [], []⟩ ⟨none, "widget", true, false⟩ false true
    (by decide) (by decide) (by decide) (by decide)

end PgSchemas
